import Mathlib

/-!
Verification of the formatting core of SchoolListsFormatter
(src/format_logic.py) against its natural-language specification.

The file shallowly embeds the functions of format_logic.py:

* `clean_text`            — lines 14-20 (text normalizer);
* `extract_names`         — lines 22-44 (name splitting; the Gemini call and
  its JSON parse are abstracted as an oracle parameter returning the parsed
  (last_name, first_name) on success, `none` on any failure — the bare
  `except` branch then runs the whitespace-split fallback);
* `determine_year_group`  — lines 46-60 (year-group resolver: a faithful model
  of `re.search` with the pattern `(?:year|yr)?\s*(\d+|[kK])`, IGNORECASE);
* `format_sheet_data`     — lines 62-148 (the post-processing duplicate-merge
  loop of lines 118-139 is `mergeStep`/`mergePass`; exceptions raised by the
  Python list indexing inside the loop are modelled with `Option`);
* `basic_format`          — lines 150-207 (the deterministic fallback scan).

Spreadsheet cells are untyped in Python; `Cell` models the scalar cases the
code distinguishes (strings and numbers differ in truthiness and `str()`).
-/

namespace SchoolLists

/-- ASCII whitespace, as Python's default `str.strip`/`str.split` and the
regex class `\s` treat it. -/
def pyIsSpace (c : Char) : Bool :=
  c = ' ' || c = '\t' || c = '\n' || c = '\r' || c = '\x0b' || c = '\x0c'

/-- Python `str.strip()` on a character list: drop leading and trailing
whitespace. -/
def stripChars (l : List Char) : List Char :=
  ((l.dropWhile pyIsSpace).reverse.dropWhile pyIsSpace).reverse

/-- Python `str.strip()`. -/
def pyStrip (s : String) : String := String.mk (stripChars s.data)

/-- Python `str.replace(a, b)` for single characters (source line 17). -/
def replaceChar (a b : Char) (l : List Char) : List Char :=
  l.map (fun c => if c = a then b else c)

/-- The five macron substitutions of source line 17, applied in order. -/
def macronize (l : List Char) : List Char :=
  replaceChar 'ū' 'u' (replaceChar 'ō' 'o' (replaceChar 'ī' 'i'
    (replaceChar 'ē' 'e' (replaceChar 'ā' 'a' l))))

/-- Source lines 14-20: replace the macron vowels, remove apostrophes
(line 19, `replace("'", "")`), and strip surrounding whitespace (line 20). -/
def clean_text (s : String) : String :=
  String.mk (stripChars ((macronize s.data).filter (fun c => c != '\'')))

/-- Python `str.split()` (no separator): maximal runs of non-whitespace,
empties discarded.  Accumulator-based so the recursion is structural. -/
def wordsAux : List Char → List Char → List (List Char)
  | cur, [] => if cur.isEmpty then [] else [cur.reverse]
  | cur, c :: cs =>
    if pyIsSpace c then
      if cur.isEmpty then wordsAux [] cs else cur.reverse :: wordsAux [] cs
    else wordsAux (c :: cur) cs

/-- Python `str.split()`. -/
def pySplit (s : String) : List String :=
  (wordsAux [] s.data).map String.mk

/-- Source lines 22-44.  `oracle full_name` stands for the
`model.generate_content` call plus `json.loads`, yielding the parsed
(last_name, first_name) on success; `none` is the bare `except` path
(lines 39-44), the whitespace-splitting fallback. -/
def extract_names (oracle : String → Option (String × String))
    (full_name : String) : String × String :=
  match oracle full_name with
  | some (ln, fn) => (clean_text ln, clean_text fn)
  | none =>
    let parts := pySplit full_name
    if 2 ≤ parts.length then
      (clean_text (parts.getLastD ""),
       clean_text (String.intercalate " " parts.dropLast))
    else (clean_text full_name, "")

/-- Literal match of `pat` at the head of the haystack. -/
def matchHere : List Char → List Char → Bool
  | [], _ => true
  | _ :: _, [] => false
  | p :: ps, c :: cs => p == c && matchHere ps cs

/-- Substring search for a literal pattern (what `re.search` does for an
alternation of literals: a match exists iff some alternative occurs). -/
def hasSub (pat : List Char) : List Char → Bool
  | [] => matchHere pat []
  | c :: rest => matchHere pat (c :: rest) || hasSub pat rest

/-- Case-insensitive containment of an ASCII literal, as
`re.search(pat, cell, re.IGNORECASE)` decides it for a literal `pat`. -/
def containsCI (cell pat : String) : Bool :=
  hasSub pat.data (cell.data.map Char.toLower)

/-- Source line 173: `re.search(r'(?:year|yr|class|room)', cell, re.IGNORECASE)`. -/
def classPat (cell : String) : Bool :=
  containsCI cell "year" || containsCI cell "yr" ||
  containsCI cell "class" || containsCI cell "room"

/-- Source lines 175 and 181: `re.search(r'(?:mr|mrs|miss|ms|dr)', cell, re.IGNORECASE)`. -/
def titlePat (cell : String) : Bool :=
  containsCI cell "mr" || containsCI cell "mrs" || containsCI cell "miss" ||
  containsCI cell "ms" || containsCI cell "dr"

/-- Source line 177: `"@" in cell`. -/
def hasAt (cell : String) : Bool := cell.data.contains '@'

/-- A character the capture group `(\d+|[kK])` can start with. -/
def isGroupChar (c : Char) : Bool := c.isDigit || c = 'k' || c = 'K'

/-- The capture group `(\d+|[kK])` matched at the current position: a maximal
digit run, or a single `k`/`K`; `none` when neither matches here. -/
def groupAt : List Char → Option (List Char)
  | [] => none
  | c :: cs =>
    if c.isDigit then some (c :: cs.takeWhile Char.isDigit)
    else if c = 'k' || c = 'K' then some [c]
    else none

/-- Case-insensitive letter tests used by the literal prefixes `year`/`yr`. -/
def chY (c : Char) : Bool := c = 'y' || c = 'Y'

def chE (c : Char) : Bool := c = 'e' || c = 'E'

def chA (c : Char) : Bool := c = 'a' || c = 'A'

def chR (c : Char) : Bool := c = 'r' || c = 'R'

/-- Does the literal `year` (IGNORECASE) match at the current position? -/
def startsYear : List Char → Bool
  | a :: b :: c :: d :: _ => chY a && chE b && chA c && chR d
  | _ => false

/-- Does the literal `yr` (IGNORECASE) match at the current position? -/
def startsYr : List Char → Bool
  | a :: b :: _ => chY a && chR b
  | _ => false

/-- One attempt of `(?:year|yr)?\s*(\d+|[kK])` anchored at the current
position, with the regex engine's backtracking order: the alternative `year`
first, then `yr`, then the empty prefix, each followed by greedily consumed
whitespace.  Fewer-whitespace backtracks cannot succeed (the exposed character
would be whitespace, which the group rejects), so greedy `\s*` is exact. -/
def matchAt (l : List Char) : Option (List Char) :=
  match (if startsYear l then groupAt ((l.drop 4).dropWhile pyIsSpace) else none) with
  | some g => some g
  | none =>
    match (if startsYr l then groupAt ((l.drop 2).dropWhile pyIsSpace) else none) with
    | some g => some g
    | none => groupAt (l.dropWhile pyIsSpace)

/-- Python `re.search` semantics: the match whose start is leftmost. -/
def searchYear : List Char → Option (List Char)
  | [] => none
  | c :: rest =>
    match matchAt (c :: rest) with
    | some g => some g
    | none => searchYear rest

/-- Lowercase every character (`str.lower()`, ASCII arguments here). -/
def strLower (s : String) : String := String.mk (s.data.map Char.toLower)

/-- Uppercase every character (`str.upper()`, ASCII arguments here). -/
def strUpper (s : String) : String := String.mk (s.data.map Char.toUpper)

/-- Source lines 46-60: extract a year token from the class name with
`re.search(r'(?:year|yr)?\s*(\d+|[kK])', class_name, re.IGNORECASE)` and
return `group(1).upper()` (the `if year == 'K'` on line 52 returns `year`
either way); otherwise fall back to the school-type defaults of lines 55-60. -/
def determine_year_group (class_name school_type : String) : String :=
  match searchYear class_name.data with
  | some g => String.mk (g.map Char.toUpper)
  | none =>
    let st := strLower school_type
    if st = "secondary" then "9"
    else if st = "primary" then "2"
    else if st = "k-12" then "6"
    else ""

/-- A spreadsheet cell: the untyped Python scalar, restricted to the cases the
code distinguishes (strings versus numbers differ in truthiness and `str()`). -/
inductive Cell where
  | str (v : String)
  | int (v : Int)
deriving DecidableEq

/-- Python `str(cell)`. -/
def cellStr : Cell → String
  | .str v => v
  | .int v => toString v

/-- Python truthiness of a cell value. -/
def cellTruthy : Cell → Bool
  | .str v => v != ""
  | .int v => v != 0

/-- The n8n metadata dict, restricted to the keys the code reads. -/
structure Metadata where
  school_type : Option String := none
  admin_name : Option String := none
  admin_email : Option String := none

/-- Source line 162: `metadata.get("school_type", "") if metadata else ""`. -/
def metaSchoolType : Option Metadata → String
  | none => ""
  | some m => m.school_type.getD ""

/-- The `current_teacher` dict of source line 161. -/
structure TeacherCtx where
  last : String
  first : String
  title : String
  email : String
deriving DecidableEq

/-- Scan-local context: `current_class` and `current_teacher`. -/
structure ScanCtx where
  current_class : String
  teacher : TeacherCtx
deriving DecidableEq

/-- Initial contexts of source lines 160-161. -/
def initCtx : ScanCtx := ⟨"", ⟨"", "", "", ""⟩⟩

/-- Source lines 172-178: one cell of the context-update loop.  The branches
form an if/elif chain, so a class-indicative cell never updates the teacher
context and a title-indicative cell never updates the email. -/
def updateCell (ctx : ScanCtx) (cell : String) : ScanCtx :=
  if classPat cell then { ctx with current_class := cell }
  else if titlePat cell then { ctx with teacher := { ctx.teacher with title := cell } }
  else if hasAt cell then { ctx with teacher := { ctx.teacher with email := cell } }
  else ctx

/-- Source line 165: `not row or not any(cell for cell in row if str(cell).strip())`.
The generator yields the cell values whose stringified, stripped form is
non-empty, and `any` tests the truthiness of those values. -/
def skipRow (row : List Cell) : Bool :=
  row.isEmpty || !(row.any (fun c => !(pyStrip (cellStr c)).isEmpty && cellTruthy c))

/-- Source line 169: `str(cell).strip() if cell else ""`. -/
def cleanCell (c : Cell) : String :=
  if cellTruthy c then pyStrip (cellStr c) else ""

/-- Source line 181: at least two cells and no title-indicative cell. -/
def isStudentRow (row : List String) : Bool :=
  decide (2 ≤ row.length) && !(row.any titlePat)

/-- Source lines 182-201: the emitted 15-field record for a student row. -/
def mkStudentRow (oracle : String → Option (String × String))
    (row : List String) (ctx : ScanCtx) (school_type : String) : List String :=
  let nf := extract_names oracle (row.headD "")
  let year := determine_year_group ctx.current_class school_type
  [nf.1, nf.2, ctx.current_class, year, ctx.teacher.last, ctx.teacher.first,
   ctx.teacher.title, "", "", ctx.teacher.email, "", "", "", "", ""]

/-- The mutable loop state of `basic_format`: contexts plus `formatted_rows`. -/
structure ScanState where
  ctx : ScanCtx
  rows : List (List String)
deriving DecidableEq

/-- Source lines 164-202: the body of the row loop of `basic_format`. -/
def basicStep (oracle : String → Option (String × String)) (school_type : String)
    (st : ScanState) (raw : List Cell) : ScanState :=
  if skipRow raw then st
  else
    let row := raw.map cleanCell
    let ctx1 := row.foldl updateCell st.ctx
    if isStudentRow row then
      ⟨ctx1, st.rows ++ [mkStudentRow oracle row ctx1 school_type]⟩
    else ⟨ctx1, st.rows⟩

/-- The fixed header labels of source lines 155-157. -/
def headersList : List String :=
  ["Last Name", "First Name", "Class", "Year", "Teacher Last", "Teacher First",
   "Teacher Title", "", "", "Teacher Email", "Second Class", "Second Teacher Last",
   "Second Teacher First", "Second Teacher Title", "Second Teacher Email"]

/-- The dict `{"headers": ..., "rows": ...}` both formatters return. -/
structure FormatResult where
  headers : List String
  rows : List (List String)
deriving DecidableEq

/-- Source lines 150-207: the deterministic fallback formatter.  `oracle` is
the name-splitting LLM call made by `extract_names` for every student row. -/
def basic_format (oracle : String → Option (String × String))
    (sheet_data : List (List Cell)) (metadata : Option Metadata) : FormatResult :=
  let school_type := metaSchoolType metadata
  let final := sheet_data.foldl (basicStep oracle school_type) ⟨initCtx, []⟩
  { headers := headersList, rows := final.rows }

/-- Python `s.isdigit()` (ASCII digits): non-empty and all digits. -/
def pyIsdigitStr (s : String) : Bool := !s.isEmpty && s.data.all Char.isDigit

/-- Python `int(s)` for a digit string. -/
def digitsVal (s : String) : Nat :=
  s.data.foldl (fun n c => n * 10 + (c.toNat - 48)) 0

/-- Source lines 130-131: `int(x) if x.isdigit() else 0`. -/
def pyYear (s : String) : Int := if pyIsdigitStr s then (digitsVal s : Int) else 0

/-- The duplicate-detection state of source lines 118-119.  In Python,
`seen_students` stores the very list object that was appended to
`processed_rows`, and the merge mutates that shared object; the model makes
the sharing explicit by storing the record's index in the emission list. -/
structure MergeState where
  seen : List (String × Nat)
  out : List (List String)
deriving DecidableEq

/-- Lookup in the insertion-ordered dict `seen_students`. -/
def lookupIdx : List (String × Nat) → String → Option Nat
  | [], _ => none
  | (k, i) :: rest, key => if k = key then some i else lookupIdx rest key

/-- Python dict assignment `seen_students[student_key] = row`: replace the
existing binding in place, or insert at the end. -/
def updateIdx : List (String × Nat) → String → Nat → List (String × Nat)
  | [], key, i => [(key, i)]
  | (k, j) :: rest, key, i =>
    if k = key then (k, i) :: rest else (k, j) :: updateIdx rest key i

/-- Source line 135: `prev_row[10:15] = row[2:7]`, with Python slice-assignment
semantics (clamping at the list ends). -/
def sliceWrite (prev row : List String) : List String :=
  prev.take 10 ++ (row.drop 2).take 5 ++ prev.drop 15

/-- Source lines 121-139, one record of the duplicate-merge loop (the cleaning
of line 123 is applied by `postProcess` before this pass).  Python raises
`IndexError` on `row[0]`, `row[1]`, `prev_row[3]` or `row[3]` when the record
is too short; the exception escapes to the `except` of line 146, modelled by
`none`. -/
def mergeStep (st : MergeState) (row : List String) : Option MergeState := do
  let l ← row[0]?
  let f ← row[1]?
  let key := l ++ "_" ++ f
  match lookupIdx st.seen key with
  | some idx =>
    let prev := st.out.getD idx []
    let py ← prev[3]?
    let cy ← row[3]?
    if (pyYear py - pyYear cy).natAbs ≤ 1 then
      pure ⟨st.seen, st.out.set idx (sliceWrite prev row)⟩
    else
      pure ⟨updateIdx st.seen key st.out.length, st.out ++ [row]⟩
  | none => pure ⟨st.seen ++ [(key, st.out.length)], st.out ++ [row]⟩

/-- The duplicate-merge pass of source lines 118-139 over already-cleaned
records, yielding `processed_rows`. -/
def mergePass (records : List (List String)) : Option (List (List String)) :=
  (records.foldlM mergeStep ⟨[], []⟩).map MergeState.out

/-- Source lines 118-139 including the per-cell cleaning of line 123. -/
def postProcess (rows : List (List Cell)) : Option (List (List String)) :=
  mergePass (rows.map (fun r => r.map (fun c => clean_text (cellStr c))))

/-- Source lines 62-148.  `llm` abstracts the Gemini call of line 113 plus the
JSON parse of line 115: `some (headers, rows)` on success, `none` on any
failure.  Any exception inside the post-processing loop also reaches the
`except` of line 146; both roads fall back to `basic_format`. -/
def format_sheet_data (llm : Option (List String × List (List Cell)))
    (oracle : String → Option (String × String))
    (sheet_data : List (List Cell)) (metadata : Option Metadata) : FormatResult :=
  match llm with
  | none => basic_format oracle sheet_data metadata
  | some (hs, rs) =>
    match postProcess rs with
    | some out => ⟨hs, out⟩
    | none => basic_format oracle sheet_data metadata

/-- The record-emitting scan of `basic_format` written as a direct recursion
over the rows (used to state that the fallback output is the scan alone). -/
def basicScanAux (oracle : String → Option (String × String)) (school_type : String)
    (ctx : ScanCtx) : List (List Cell) → List (List String)
  | [] => []
  | raw :: rest =>
    if skipRow raw then basicScanAux oracle school_type ctx rest
    else
      let row := raw.map cleanCell
      let ctx1 := row.foldl updateCell ctx
      if isStudentRow row then
        mkStudentRow oracle row ctx1 school_type ::
          basicScanAux oracle school_type ctx1 rest
      else basicScanAux oracle school_type ctx1 rest

/-- The ordered record list of the Deterministic Formatter scan. -/
def basicScan (oracle : String → Option (String × String))
    (sheet_data : List (List Cell)) (metadata : Option Metadata) : List (List String) :=
  basicScanAux oracle (metaSchoolType metadata) initCtx sheet_data

/-- Modelled from the spec, for the refinement claim about the fallback path:
the per-cell context update as section 4.3 steps 3-4 word it — the class,
title and email conditions are tested independently (no elif chain). -/
def specUpdateCell (ctx : ScanCtx) (cell : String) : ScanCtx :=
  let c1 := if classPat cell then { ctx with current_class := cell } else ctx
  let c2 := if titlePat cell then { c1 with teacher := { c1.teacher with title := cell } } else c1
  if hasAt cell then { c2 with teacher := { c2.teacher with email := cell } } else c2

/-- Modelled from the spec, section 4.3 step 1: skip rows that are empty or
contain only blank/whitespace cells. -/
def specBlankRow (row : List Cell) : Bool :=
  row.isEmpty || row.all (fun c => (pyStrip (cellStr c)).isEmpty)

/-- Modelled from the spec, section 4.3 step 6: whitespace tokenization; the
last token is the last name, the preceding tokens joined by a space the first
name, both normalized; a single-token name yields an empty first name. -/
def specSplitName (s : String) : String × String :=
  let parts := pySplit s
  if 2 ≤ parts.length then
    (clean_text (parts.getLastD ""),
     clean_text (String.intercalate " " parts.dropLast))
  else (clean_text s, "")

/-- Modelled from the spec: the Deterministic Formatter scan of section 4.3,
producing the ordered record list that section 2 says the Duplicate Merge
Pass then consumes. -/
def specScanAux (school_type : String) (ctx : ScanCtx) :
    List (List Cell) → List (List String)
  | [] => []
  | raw :: rest =>
    if specBlankRow raw then specScanAux school_type ctx rest
    else
      let row := raw.map (fun c => pyStrip (cellStr c))
      let ctx1 := row.foldl specUpdateCell ctx
      if decide (2 ≤ row.length) && !(row.any titlePat) then
        (let nf := specSplitName (row.headD "")
         let year := determine_year_group ctx1.current_class school_type
         [nf.1, nf.2, ctx1.current_class, year, ctx1.teacher.last,
          ctx1.teacher.first, ctx1.teacher.title, "", "", ctx1.teacher.email,
          "", "", "", "", ""]) :: specScanAux school_type ctx1 rest
      else specScanAux school_type ctx1 rest

/-- Modelled from the spec: the section 4.3 scan from the initial contexts. -/
def specScan (school_type : String) (rows : List (List Cell)) : List (List String) :=
  specScanAux school_type initCtx rows

/-! ## Helper lemmas -/

/-- One step of the merge loop on a record whose Student Key is unseen:
the record is stored and appended (source lines 138-139). -/
theorem mergeStep_new (st : MergeState) (row : List String) (l f : String)
    (h0 : row[0]? = some l) (h1 : row[1]? = some f)
    (hnone : lookupIdx st.seen (l ++ "_" ++ f) = none) :
    mergeStep st row = some ⟨st.seen ++ [(l ++ "_" ++ f, st.out.length)], st.out ++ [row]⟩ := by
  simp [mergeStep, h0, h1, hnone]

/-- One step of the merge loop on a seen Student Key with year gap at most
one: the stored record's slice 10-15 is overwritten in place (source
lines 133-136). -/
theorem mergeStep_seen_le (st : MergeState) (row prev : List String) (idx : Nat)
    (l f py cy : String)
    (h0 : row[0]? = some l) (h1 : row[1]? = some f)
    (hseen : lookupIdx st.seen (l ++ "_" ++ f) = some idx)
    (hidx : st.out[idx]? = some prev)
    (h3p : prev[3]? = some py) (h3c : row[3]? = some cy)
    (hle : (pyYear py - pyYear cy).natAbs ≤ 1) :
    mergeStep st row = some ⟨st.seen, st.out.set idx (sliceWrite prev row)⟩ := by
  simp [mergeStep, h0, h1, hseen, hidx, h3p, h3c, hle]

/-- One step of the merge loop on a seen Student Key with year gap above one:
control falls through both `if`s, so the record is stored and appended
(source lines 138-139). -/
theorem mergeStep_seen_gt (st : MergeState) (row prev : List String) (idx : Nat)
    (l f py cy : String)
    (h0 : row[0]? = some l) (h1 : row[1]? = some f)
    (hseen : lookupIdx st.seen (l ++ "_" ++ f) = some idx)
    (hidx : st.out[idx]? = some prev)
    (h3p : prev[3]? = some py) (h3c : row[3]? = some cy)
    (hgt : ¬(pyYear py - pyYear cy).natAbs ≤ 1) :
    mergeStep st row =
      some ⟨updateIdx st.seen (l ++ "_" ++ f) st.out.length, st.out ++ [row]⟩ := by
  simp [mergeStep, h0, h1, hseen, hidx, h3p, h3c, hgt]

/-- Fields below index 10 are untouched by the slice assignment (for the
15-field records of this pipeline). -/
theorem sliceWrite_low {prev : List String} (row : List String) {k : Nat}
    (hk : k < 10) (hl : prev.length = 15) :
    (sliceWrite prev row)[k]? = prev[k]? := by
  have h10 : (prev.take 10).length = 10 := by simp [hl]
  unfold sliceWrite
  rw [List.append_assoc, List.getElem?_append_left (by omega),
    List.getElem?_take_of_lt hk]

/-- Fields 10-14 of the merged record are fields 2-6 of the incoming record
(for 15-field records). -/
theorem sliceWrite_high {prev row : List String} {k : Nat}
    (hk : k < 5) (hl : prev.length = 15) (hr : 7 ≤ row.length) :
    (sliceWrite prev row)[10 + k]? = row[2 + k]? := by
  have h10 : (prev.take 10).length = 10 := by simp [hl]
  have h5 : ((row.drop 2).take 5).length = 5 := by
    simp [List.length_take, List.length_drop]
    omega
  unfold sliceWrite
  rw [List.append_assoc, List.getElem?_append_right (by omega), h10]
  have hidx : 10 + k - 10 = k := by omega
  rw [hidx, List.getElem?_append_left (by omega), List.getElem?_take_of_lt hk,
    List.getElem?_drop]

/-- The rows accumulated by the `basic_format` fold are the initial rows
followed by the records of the direct-recursion scan. -/
theorem foldl_basicStep_rows (oracle : String → Option (String × String))
    (sty : String) (rows : List (List Cell)) :
    ∀ st : ScanState,
      (rows.foldl (basicStep oracle sty) st).rows =
        st.rows ++ basicScanAux oracle sty st.ctx rows := by
  induction rows with
  | nil => intro st; simp [basicScanAux]
  | cons raw rest ih =>
    intro st
    simp only [List.foldl_cons, basicScanAux]
    by_cases h : skipRow raw = true
    · simp only [basicStep, h, if_true, ih]
    · simp only [basicStep, h, if_false, Bool.false_eq_true]
      by_cases hs : isStudentRow (raw.map cleanCell) = true
      · simp only [hs, if_true, ih, List.append_assoc, List.singleton_append]
      · simp only [hs, if_false, Bool.false_eq_true, ih]

/-- Heads produced by `dropWhile` fail the predicate. -/
theorem dropWhile_head_false (p : Char → Bool) :
    ∀ (l : List Char) (c : Char) (t : List Char), l.dropWhile p = c :: t → p c = false := by
  intro l
  induction l with
  | nil => intro c t h; simp at h
  | cons x xs ih =>
    intro c t h
    by_cases hp : p x = true
    · rw [List.dropWhile_cons_of_pos hp] at h
      exact ih c t h
    · rw [List.dropWhile_cons_of_neg hp] at h
      cases h
      exact Bool.eq_false_iff.mpr hp

/-- Dropping a prefix twice is dropping it once. -/
theorem dropWhile_dropWhile (p : Char → Bool) (l : List Char) :
    (l.dropWhile p).dropWhile p = l.dropWhile p := by
  induction l with
  | nil => simp
  | cons x xs ih =>
    by_cases hp : p x = true
    · rw [List.dropWhile_cons_of_pos hp]
      exact ih
    · rw [List.dropWhile_cons_of_neg hp, List.dropWhile_cons_of_neg hp]

/-- Characters of a stripped list come from the original list. -/
theorem mem_stripChars {c : Char} {l : List Char} (h : c ∈ stripChars l) : c ∈ l := by
  unfold stripChars at h
  rw [List.mem_reverse] at h
  have h1 := (List.dropWhile_sublist pyIsSpace).subset h
  rw [List.mem_reverse] at h1
  exact (List.dropWhile_sublist pyIsSpace).subset h1

/-- Stripping is idempotent. -/
theorem stripChars_idem (l : List Char) : stripChars (stripChars l) = stripChars l := by
  unfold stripChars
  obtain ⟨t, ht⟩ :
      ((l.dropWhile pyIsSpace).reverse.dropWhile pyIsSpace) <:+
        (l.dropWhile pyIsSpace).reverse :=
    List.dropWhile_suffix pyIsSpace
  have hDS : l.dropWhile pyIsSpace =
      ((l.dropWhile pyIsSpace).reverse.dropWhile pyIsSpace).reverse ++ t.reverse := by
    have h2 := congrArg List.reverse ht
    simpa using h2.symm
  have hstep1 :
      ((l.dropWhile pyIsSpace).reverse.dropWhile pyIsSpace).reverse.dropWhile pyIsSpace =
        ((l.dropWhile pyIsSpace).reverse.dropWhile pyIsSpace).reverse := by
    cases hXr : ((l.dropWhile pyIsSpace).reverse.dropWhile pyIsSpace).reverse with
    | nil => simp
    | cons c s' =>
      have hc : pyIsSpace c = false := by
        apply dropWhile_head_false pyIsSpace l c (s' ++ t.reverse)
        rw [hDS, hXr]
        rfl
      rw [List.dropWhile_cons_of_neg (by simp [hc])]
  rw [hstep1, List.reverse_reverse, dropWhile_dropWhile]

/-- Membership of the single-character replacement map. -/
theorem mem_replaceChar {a b c : Char} {l : List Char} (h : c ∈ replaceChar a b l) :
    c = b ∨ (c ∈ l ∧ c ≠ a) := by
  unfold replaceChar at h
  rw [List.mem_map] at h
  obtain ⟨x, hx, he⟩ := h
  by_cases hxa : x = a
  · rw [hxa, if_pos rfl] at he
    exact Or.inl he.symm
  · rw [if_neg hxa] at he
    exact Or.inr ⟨he ▸ hx, he ▸ hxa⟩

/-- No character of a macronized list is a macron vowel. -/
theorem macronize_no_macron {c : Char} {l : List Char} (h : c ∈ macronize l) :
    c ≠ 'ā' ∧ c ≠ 'ē' ∧ c ≠ 'ī' ∧ c ≠ 'ō' ∧ c ≠ 'ū' := by
  unfold macronize at h
  rcases mem_replaceChar h with rfl | ⟨h, hu⟩
  · exact ⟨by decide, by decide, by decide, by decide, by decide⟩
  rcases mem_replaceChar h with rfl | ⟨h, ho⟩
  · exact ⟨by decide, by decide, by decide, by decide, by decide⟩
  rcases mem_replaceChar h with rfl | ⟨h, hi⟩
  · exact ⟨by decide, by decide, by decide, by decide, by decide⟩
  rcases mem_replaceChar h with rfl | ⟨h, he⟩
  · exact ⟨by decide, by decide, by decide, by decide, by decide⟩
  rcases mem_replaceChar h with rfl | ⟨h, ha⟩
  · exact ⟨by decide, by decide, by decide, by decide, by decide⟩
  exact ⟨ha, he, hi, ho, hu⟩

/-- The replacement map fixes lists free of the replaced character. -/
theorem replaceChar_eq_self {a b : Char} {l : List Char} (h : ∀ c ∈ l, c ≠ a) :
    replaceChar a b l = l := by
  unfold replaceChar
  have hc : ∀ c ∈ l, (if c = a then b else c) = c := fun c hc => if_neg (h c hc)
  rw [List.map_congr_left hc, List.map_id']

/-- Macronization fixes lists free of macron vowels. -/
theorem macronize_eq_self {l : List Char}
    (h : ∀ c ∈ l, c ≠ 'ā' ∧ c ≠ 'ē' ∧ c ≠ 'ī' ∧ c ≠ 'ō' ∧ c ≠ 'ū') :
    macronize l = l := by
  unfold macronize
  have h1 : replaceChar 'ā' 'a' l = l := replaceChar_eq_self fun c hc => (h c hc).1
  rw [h1]
  have h2 : replaceChar 'ē' 'e' l = l := replaceChar_eq_self fun c hc => (h c hc).2.1
  rw [h2]
  have h3 : replaceChar 'ī' 'i' l = l := replaceChar_eq_self fun c hc => (h c hc).2.2.1
  rw [h3]
  have h4 : replaceChar 'ō' 'o' l = l := replaceChar_eq_self fun c hc => (h c hc).2.2.2.1
  rw [h4]
  exact replaceChar_eq_self fun c hc => (h c hc).2.2.2.2

/-- A group character is none of the pattern letters and no whitespace. -/
theorem groupChar_props (c : Char) (h : isGroupChar c = true) :
    chY c = false ∧ chE c = false ∧ chA c = false ∧ chR c = false ∧
      pyIsSpace c = false := by
  refine ⟨?_, ?_, ?_, ?_, ?_⟩
  · cases hy : chY c
    · rfl
    · exfalso
      have hcc : c = 'y' ∨ c = 'Y' := by simpa [chY] using hy
      rcases hcc with rfl | rfl <;> revert h <;> decide
  · cases hy : chE c
    · rfl
    · exfalso
      have hcc : c = 'e' ∨ c = 'E' := by simpa [chE] using hy
      rcases hcc with rfl | rfl <;> revert h <;> decide
  · cases hy : chA c
    · rfl
    · exfalso
      have hcc : c = 'a' ∨ c = 'A' := by simpa [chA] using hy
      rcases hcc with rfl | rfl <;> revert h <;> decide
  · cases hy : chR c
    · rfl
    · exfalso
      have hcc : c = 'r' ∨ c = 'R' := by simpa [chR] using hy
      rcases hcc with rfl | rfl <;> revert h <;> decide
  · cases hy : pyIsSpace c
    · rfl
    · exfalso
      have hcc : ((((c = ' ' ∨ c = '\t') ∨ c = '\n') ∨ c = '\r') ∨ c = '\x0b') ∨ c = '\x0c' := by
        simpa [pyIsSpace] using hy
      rcases hcc with ((((rfl | rfl) | rfl) | rfl) | rfl) | rfl <;> revert h <;> decide

/-- The capture group fails on a non-group head character. -/
theorem groupAt_cons_none {c : Char} (cs : List Char) (h : isGroupChar c = false) :
    groupAt (c :: cs) = none := by
  have h' : c.isDigit = false ∧ (c = 'k' || c = 'K') = false := by
    constructor
    · cases hd : c.isDigit
      · rfl
      · exfalso
        revert h
        simp [isGroupChar, hd]
    · cases hk : (c = 'k' || c = 'K')
      · rfl
      · exfalso
        have hcc : c = 'k' ∨ c = 'K' := by simpa using hk
        rcases hcc with rfl | rfl <;> revert h <;> decide
  simp [groupAt, h'.1, h'.2]

/-- Matching at the first letter of the four-letter prefix. -/
theorem startsYear_head {c : Char} {t : List Char} (h : startsYear (c :: t) = true) :
    chY c = true := by
  match t with
  | [] => simp [startsYear] at h
  | [_] => simp [startsYear] at h
  | [_, _] => simp [startsYear] at h
  | _ :: _ :: _ :: _ =>
    simp only [startsYear, Bool.and_eq_true] at h
    exact h.1.1.1

/-- Matching at the second letter of the four-letter prefix. -/
theorem startsYear_second {a c : Char} {t : List Char}
    (h : startsYear (a :: c :: t) = true) : chE c = true := by
  match t with
  | [] => simp [startsYear] at h
  | [_] => simp [startsYear] at h
  | _ :: _ :: _ =>
    simp only [startsYear, Bool.and_eq_true] at h
    exact h.1.1.2

/-- Matching at the third letter of the four-letter prefix. -/
theorem startsYear_third {a b c : Char} {t : List Char}
    (h : startsYear (a :: b :: c :: t) = true) : chA c = true := by
  match t with
  | [] => simp [startsYear] at h
  | _ :: _ =>
    simp only [startsYear, Bool.and_eq_true] at h
    exact h.1.2

/-- Matching at the fourth letter of the four-letter prefix. -/
theorem startsYear_fourth {a b d c : Char} {t : List Char}
    (h : startsYear (a :: b :: d :: c :: t) = true) : chR c = true := by
  simp only [startsYear, Bool.and_eq_true] at h
  exact h.2

/-- Matching at the first letter of the two-letter prefix. -/
theorem startsYr_head {c : Char} {t : List Char} (h : startsYr (c :: t) = true) :
    chY c = true := by
  match t with
  | [] => simp [startsYr] at h
  | _ :: _ =>
    simp only [startsYr, Bool.and_eq_true] at h
    exact h.1

/-- Matching at the second letter of the two-letter prefix. -/
theorem startsYr_second {a c : Char} {t : List Char}
    (h : startsYr (a :: c :: t) = true) : chR c = true := by
  simp only [startsYr, Bool.and_eq_true] at h
  exact h.2

/-- If the four-letter prefix matches across a non-group region followed by a
group character, the region holds the whole prefix. -/
theorem startsYear_junk {q : List Char} {c : Char} {cs : List Char}
    (hq : ∀ x ∈ q, isGroupChar x = false) (hc : isGroupChar c = true)
    (h : startsYear (q ++ c :: cs) = true) : 4 ≤ q.length := by
  rcases q with _ | ⟨x1, _ | ⟨x2, _ | ⟨x3, _ | ⟨x4, q'⟩⟩⟩⟩
  · exact absurd (startsYear_head h) (by simp [(groupChar_props c hc).1])
  · exact absurd (startsYear_second h) (by simp [(groupChar_props c hc).2.1])
  · exact absurd (startsYear_third h) (by simp [(groupChar_props c hc).2.2.1])
  · exact absurd (startsYear_fourth h) (by simp [(groupChar_props c hc).2.2.2.1])
  · simp only [List.length_cons]
    omega

/-- If the two-letter prefix matches across a non-group region followed by a
group character, the region holds the whole prefix. -/
theorem startsYr_junk {q : List Char} {c : Char} {cs : List Char}
    (hq : ∀ x ∈ q, isGroupChar x = false) (hc : isGroupChar c = true)
    (h : startsYr (q ++ c :: cs) = true) : 2 ≤ q.length := by
  rcases q with _ | ⟨x1, _ | ⟨x2, q'⟩⟩
  · exact absurd (startsYr_head h) (by simp [(groupChar_props c hc).1])
  · exact absurd (startsYr_second h) (by simp [(groupChar_props c hc).2.2.2.1])
  · simp only [List.length_cons]
    omega

/-- Consuming whitespace across a non-group region either fails or lands on
the group at the head of the remainder. -/
theorem groupAt_dropWhile_junk (a : List Char) (c : Char) (cs v : List Char)
    (ha : ∀ x ∈ a, isGroupChar x = false) (hc : isGroupChar c = true)
    (hv : groupAt (c :: cs) = some v) :
    groupAt ((a ++ c :: cs).dropWhile pyIsSpace) = none ∨
      groupAt ((a ++ c :: cs).dropWhile pyIsSpace) = some v := by
  induction a with
  | nil =>
    right
    have hns : pyIsSpace c = false := (groupChar_props c hc).2.2.2.2
    rw [List.nil_append, List.dropWhile_cons_of_neg (by simp [hns])]
    exact hv
  | cons x a' ih =>
    have hx : isGroupChar x = false := ha x (List.mem_cons_self x a')
    by_cases hs : pyIsSpace x = true
    · rw [List.cons_append, List.dropWhile_cons_of_pos hs]
      exact ih fun y hy => ha y (List.mem_cons_of_mem _ hy)
    · left
      rw [List.cons_append, List.dropWhile_cons_of_neg hs]
      exact groupAt_cons_none _ hx

/-- A regex attempt anchored inside the non-group region either fails or
captures the group at the head of the remainder. -/
theorem matchAt_junk (q : List Char) (c : Char) (cs v : List Char)
    (hq : ∀ x ∈ q, isGroupChar x = false) (hc : isGroupChar c = true)
    (hv : groupAt (c :: cs) = some v) :
    matchAt (q ++ c :: cs) = none ∨ matchAt (q ++ c :: cs) = some v := by
  have h3 := groupAt_dropWhile_junk q c cs v hq hc hv
  by_cases hY : startsYear (q ++ c :: cs) = true
  · have hdrop : (q ++ c :: cs).drop 4 = q.drop 4 ++ c :: cs :=
      List.drop_append_of_le_length (startsYear_junk hq hc hY)
    have h1 := groupAt_dropWhile_junk (q.drop 4) c cs v
      (fun x hx => hq x (List.mem_of_mem_drop hx)) hc hv
    rcases h1 with h1 | h1
    · by_cases hR : startsYr (q ++ c :: cs) = true
      · have hdrop2 : (q ++ c :: cs).drop 2 = q.drop 2 ++ c :: cs :=
          List.drop_append_of_le_length (startsYr_junk hq hc hR)
        have h2 := groupAt_dropWhile_junk (q.drop 2) c cs v
          (fun x hx => hq x (List.mem_of_mem_drop hx)) hc hv
        rcases h2 with h2 | h2
        · rcases h3 with h3 | h3
          · left
            simp [matchAt, hY, hR, hdrop, hdrop2, h1, h2, h3]
          · right
            simp [matchAt, hY, hR, hdrop, hdrop2, h1, h2, h3]
        · right
          simp [matchAt, hY, hR, hdrop, hdrop2, h1, h2]
      · rcases h3 with h3 | h3
        · left
          simp [matchAt, hY, hR, hdrop, h1, h3]
        · right
          simp [matchAt, hY, hR, hdrop, h1, h3]
    · right
      simp [matchAt, hY, hdrop, h1]
  · by_cases hR : startsYr (q ++ c :: cs) = true
    · have hdrop2 : (q ++ c :: cs).drop 2 = q.drop 2 ++ c :: cs :=
        List.drop_append_of_le_length (startsYr_junk hq hc hR)
      have h2 := groupAt_dropWhile_junk (q.drop 2) c cs v
        (fun x hx => hq x (List.mem_of_mem_drop hx)) hc hv
      rcases h2 with h2 | h2
      · rcases h3 with h3 | h3
        · left
          simp [matchAt, hY, hR, hdrop2, h2, h3]
        · right
          simp [matchAt, hY, hR, hdrop2, h2, h3]
      · right
        simp [matchAt, hY, hR, hdrop2, h2]
    · rcases h3 with h3 | h3
      · left
        simp [matchAt, hY, hR, h3]
      · right
        simp [matchAt, hY, hR, h3]

/-- A regex attempt anchored exactly at a group character captures it. -/
theorem matchAt_at_group (c : Char) (cs v : List Char) (hc : isGroupChar c = true)
    (hv : groupAt (c :: cs) = some v) : matchAt (c :: cs) = some v := by
  have hY : startsYear (c :: cs) = false := by
    cases hy : startsYear (c :: cs)
    · rfl
    · exact absurd (startsYear_head hy) (by simp [(groupChar_props c hc).1])
  have hR : startsYr (c :: cs) = false := by
    cases hy : startsYr (c :: cs)
    · rfl
    · exact absurd (startsYr_head hy) (by simp [(groupChar_props c hc).1])
  have hns : ¬pyIsSpace c = true := by
    simp [(groupChar_props c hc).2.2.2.2]
  simp [matchAt, hY, hR, List.dropWhile_cons_of_neg hns, hv]

/-- The leftmost regex match over a non-group region followed by a group
character captures exactly that group. -/
theorem searchYear_junk (p : List Char) (c : Char) (cs v : List Char)
    (hp : ∀ x ∈ p, isGroupChar x = false) (hc : isGroupChar c = true)
    (hv : groupAt (c :: cs) = some v) :
    searchYear (p ++ c :: cs) = some v := by
  induction p with
  | nil =>
    rw [List.nil_append]
    simp [searchYear, matchAt_at_group c cs v hc hv]
  | cons x p' ih =>
    have hm := matchAt_junk (x :: p') c cs v hp hc hv
    have ih' := ih fun y hy => hp y (List.mem_cons_of_mem _ hy)
    rw [List.cons_append]
    rcases hm with hm | hm
    · rw [List.cons_append] at hm
      simp [searchYear, hm, ih']
    · rw [List.cons_append] at hm
      simp [searchYear, hm]

/-- A maximal digit run stops exactly at the first non-digit. -/
theorem takeWhile_digits_append (ds t : List Char)
    (hds : ∀ x ∈ ds, x.isDigit = true)
    (ht : ∀ x, t.head? = some x → x.isDigit = false) :
    (ds ++ t).takeWhile Char.isDigit = ds := by
  induction ds with
  | nil =>
    cases t with
    | nil => rfl
    | cons a t' =>
      have ha : ¬Char.isDigit a = true := by simp [ht a rfl]
      simp [List.takeWhile_cons_of_neg ha]
  | cons d ds' ih =>
    rw [List.cons_append,
      List.takeWhile_cons_of_pos (hds d (List.mem_cons_self d ds'))]
    rw [ih fun x hx => hds x (List.mem_cons_of_mem _ hx)]

/-! ## Claims -/

/-- Claim C1, counterexample: `basic_format` is not a pure function of the
input rows plus metadata — it calls the name-splitting LLM through
`extract_names` (source line 182 calls line 35), and two runs that differ only
in the LLM's answer produce different output on the same rows and metadata. -/
theorem basic_format_depends_on_name_oracle :
    basic_format (fun _ => none)
        [[Cell.str "Anaru Ngata", Cell.str "x"]] none
      ≠ basic_format (fun _ => some ("Zed", "Amy"))
        [[Cell.str "Anaru Ngata", Cell.str "x"]] none := by
  decide

/-- Claim C1, amended: `basic_format` performs the `extract_names` LLM call;
only when that call fails (the fallback situation, modelled by oracles that
always return `none`) is it a pure, deterministic function of the rows plus
metadata — any two failing oracles give equal output on every input. -/
theorem basic_format_pure_under_failing_oracle
    (o1 o2 : String → Option (String × String))
    (h1 : ∀ s, o1 s = none) (h2 : ∀ s, o2 s = none)
    (sheet_data : List (List Cell)) (metadata : Option Metadata) :
    basic_format o1 sheet_data metadata = basic_format o2 sheet_data metadata := by
  have he : ∀ s, extract_names o1 s = extract_names o2 s := by
    intro s
    unfold extract_names
    rw [h1, h2]
  have hstep : basicStep o1 (metaSchoolType metadata) = basicStep o2 (metaSchoolType metadata) := by
    funext st raw
    unfold basicStep mkStudentRow
    simp only [he]
  simp only [basic_format, hstep]

/-- Witness for the amended C1 theorem at two concrete failing oracles. -/
theorem basic_format_pure_under_failing_oracle_witness :
    basic_format (fun _ => none) [[Cell.str "Anaru Ngata", Cell.str "x"]] none =
      basic_format (fun s => if s.length < s.length then some ("a", "b") else none)
        [[Cell.str "Anaru Ngata", Cell.str "x"]] none :=
  basic_format_pure_under_failing_oracle _ _ (fun _ => rfl)
    (fun _ => if_neg (Nat.lt_irrefl _)) [[Cell.str "Anaru Ngata", Cell.str "x"]] none

/-- Claim C2, counterexample: on rows naming the same student twice, the
fallback path emits two records, while the Duplicate Merge Pass applied to the
section 4.3 scan's record list emits one — so the fallback is not the
composition of the merge pass after the scan. -/
theorem fallback_not_merge_after_scan :
    (basic_format (fun _ => none)
        [[Cell.str "Anaru Ngata", Cell.str "x"],
         [Cell.str "Anaru Ngata", Cell.str "x"]] none).rows
      = [["Ngata", "Anaru", "", "", "", "", "", "", "", "", "", "", "", "", ""],
         ["Ngata", "Anaru", "", "", "", "", "", "", "", "", "", "", "", "", ""]]
    ∧ mergePass (specScan ""
        [[Cell.str "Anaru Ngata", Cell.str "x"],
         [Cell.str "Anaru Ngata", Cell.str "x"]])
      = some [["Ngata", "Anaru", "", "", "", "", "", "", "", "", "", "", "", "", ""]]
    ∧ some (basic_format (fun _ => none)
        [[Cell.str "Anaru Ngata", Cell.str "x"],
         [Cell.str "Anaru Ngata", Cell.str "x"]] none).rows
      ≠ mergePass (specScan ""
        [[Cell.str "Anaru Ngata", Cell.str "x"],
         [Cell.str "Anaru Ngata", Cell.str "x"]]) := by
  exact ⟨by decide, by decide, by decide⟩

/-- Claim C2, amended: the fallback path is the Deterministic Formatter scan
alone — for every rows, metadata and name oracle, `basic_format`'s row list
equals the ordered record list of the scan, with no Duplicate Merge Pass
applied (the merge loop of source lines 118-139 runs only on the LLM path). -/
theorem basic_format_rows_eq_scan (oracle : String → Option (String × String))
    (sheet_data : List (List Cell)) (metadata : Option Metadata) :
    (basic_format oracle sheet_data metadata).rows = basicScan oracle sheet_data metadata := by
  simp only [basic_format, basicScan, foldl_basicStep_rows, List.nil_append]

/-- Claim C3, counterexample: a second occurrence of the same Student Key with
year gap 8 is not dropped — the merge condition fails, control falls through,
and the record is appended as a new row (source lines 138-139), so the output
has two rows rather than one. -/
theorem merge_gap_duplicate_not_dropped :
    mergePass
        [["Ngata", "Anaru", "Class A", "1", "Tui", "Rere", "Mr Tui", "", "", "t@x.nz",
          "", "", "", "", ""],
         ["Ngata", "Anaru", "Class B", "9", "Huia", "Pare", "Ms Huia", "", "", "h@x.nz",
          "", "", "", "", ""]]
      = some
        [["Ngata", "Anaru", "Class A", "1", "Tui", "Rere", "Mr Tui", "", "", "t@x.nz",
          "", "", "", "", ""],
         ["Ngata", "Anaru", "Class B", "9", "Huia", "Pare", "Ms Huia", "", "", "h@x.nz",
          "", "", "", "", ""]]
    ∧ some [(["Ngata", "Anaru", "Class A", "1", "Tui", "Rere", "Mr Tui", "", "", "t@x.nz",
          "", "", "", "", ""] : List String)]
      ≠ mergePass
        [["Ngata", "Anaru", "Class A", "1", "Tui", "Rere", "Mr Tui", "", "", "t@x.nz",
          "", "", "", "", ""],
         ["Ngata", "Anaru", "Class B", "9", "Huia", "Pare", "Ms Huia", "", "", "h@x.nz",
          "", "", "", "", ""]] := by
  exact ⟨by decide, by decide⟩

/-- Claim C3, amended: in the Duplicate Merge Pass, an incoming record whose
Student Key was already seen and whose year gap to the stored record exceeds 1
is appended to the emission list as a new record and becomes the stored record
for its key; every earlier emitted record — in particular the first record for
that key, whose fields 10-14 stay as they were — is unchanged. -/
theorem mergeStep_gap_appends_new_record
    (st : MergeState) (row prev : List String) (idx : Nat) (l f py cy : String)
    (h0 : row[0]? = some l) (h1 : row[1]? = some f)
    (hseen : lookupIdx st.seen (l ++ "_" ++ f) = some idx)
    (hidx : st.out[idx]? = some prev)
    (h3p : prev[3]? = some py) (h3c : row[3]? = some cy)
    (hgt : ¬(pyYear py - pyYear cy).natAbs ≤ 1) :
    mergeStep st row =
      some ⟨updateIdx st.seen (l ++ "_" ++ f) st.out.length, st.out ++ [row]⟩
    ∧ (st.out ++ [row])[st.out.length]? = some row
    ∧ ∀ j, j < st.out.length → (st.out ++ [row])[j]? = st.out[j]? :=
  ⟨mergeStep_seen_gt st row prev idx l f py cy h0 h1 hseen hidx h3p h3c hgt,
   List.getElem?_concat_length st.out row,
   fun _ hj => List.getElem?_append_left hj⟩

/-- Witness for the amended C3 theorem at concrete records with years 1 and 9. -/
theorem mergeStep_gap_appends_new_record_witness :
    mergeStep
        ⟨[("Ngata_Anaru", 0)],
         [["Ngata", "Anaru", "Class A", "1", "Tui", "Rere", "Mr Tui", "", "", "t@x.nz",
           "", "", "", "", ""]]⟩
        ["Ngata", "Anaru", "Class B", "9", "Huia", "Pare", "Ms Huia", "", "", "h@x.nz",
         "", "", "", "", ""]
      = some
        ⟨updateIdx [("Ngata_Anaru", 0)] ("Ngata" ++ "_" ++ "Anaru")
          [["Ngata", "Anaru", "Class A", "1", "Tui", "Rere", "Mr Tui", "", "", "t@x.nz",
            "", "", "", "", ""]].length,
         [["Ngata", "Anaru", "Class A", "1", "Tui", "Rere", "Mr Tui", "", "", "t@x.nz",
           "", "", "", "", ""]] ++
           [["Ngata", "Anaru", "Class B", "9", "Huia", "Pare", "Ms Huia", "", "", "h@x.nz",
             "", "", "", "", ""]]⟩ :=
  (mergeStep_gap_appends_new_record
      ⟨[("Ngata_Anaru", 0)],
       [["Ngata", "Anaru", "Class A", "1", "Tui", "Rere", "Mr Tui", "", "", "t@x.nz",
         "", "", "", "", ""]]⟩
      ["Ngata", "Anaru", "Class B", "9", "Huia", "Pare", "Ms Huia", "", "", "h@x.nz",
       "", "", "", "", ""]
      ["Ngata", "Anaru", "Class A", "1", "Tui", "Rere", "Mr Tui", "", "", "t@x.nz",
       "", "", "", "", ""] 0 "Ngata" "Anaru" "1" "9"
      rfl rfl (by decide) rfl rfl rfl (by decide)).1

/-- Claim C4, counterexample: a third occurrence of the same Student Key
within the year window merges again — fields 10-14 of the single emitted
record end up holding the third occurrence's fields 2-6, not the second's, so
the third occurrence is not effect-free. -/
theorem merge_third_occurrence_overwrites_again :
    mergePass
        [["Ngata", "Anaru", "Class A", "3", "Tui", "Rere", "Mr Tui", "", "", "t@x.nz",
          "", "", "", "", ""],
         ["Ngata", "Anaru", "Class B", "3", "Huia", "Pare", "Ms Huia", "", "", "h@x.nz",
          "", "", "", "", ""],
         ["Ngata", "Anaru", "Class C", "4", "Kea", "Manu", "Dr Kea", "", "", "k@x.nz",
          "", "", "", "", ""]]
      = some
        [["Ngata", "Anaru", "Class A", "3", "Tui", "Rere", "Mr Tui", "", "", "t@x.nz",
          "Class C", "4", "Kea", "Manu", "Dr Kea"]]
    ∧ some [(["Ngata", "Anaru", "Class A", "3", "Tui", "Rere", "Mr Tui", "", "", "t@x.nz",
          "Class B", "3", "Huia", "Pare", "Ms Huia"] : List String)]
      ≠ mergePass
        [["Ngata", "Anaru", "Class A", "3", "Tui", "Rere", "Mr Tui", "", "", "t@x.nz",
          "", "", "", "", ""],
         ["Ngata", "Anaru", "Class B", "3", "Huia", "Pare", "Ms Huia", "", "", "h@x.nz",
          "", "", "", "", ""],
         ["Ngata", "Anaru", "Class C", "4", "Kea", "Manu", "Dr Kea", "", "", "k@x.nz",
          "", "", "", "", ""]] := by
  exact ⟨by decide, by decide⟩

/-- Claim C4, amended: a Student Key can receive more than one merge — when
the same key occurs three times and both later years are within 1 of the first
record's year, the pass emits the first record with its slice 10-15 overwritten
twice, last by the third occurrence's fields 2-6 (the stored record is
re-checked and re-mutated, since `seen_students` keeps pointing at the emitted
row object). -/
theorem mergePass_double_merge
    (r1 r2 r3 : List String) (l f y1 y2 y3 : String)
    (h10 : r1[0]? = some l) (h11 : r1[1]? = some f) (h13 : r1[3]? = some y1)
    (h20 : r2[0]? = some l) (h21 : r2[1]? = some f) (h23 : r2[3]? = some y2)
    (h30 : r3[0]? = some l) (h31 : r3[1]? = some f) (h33 : r3[3]? = some y3)
    (hlen : r1.length = 15)
    (g12 : (pyYear y1 - pyYear y2).natAbs ≤ 1)
    (g13 : (pyYear y1 - pyYear y3).natAbs ≤ 1) :
    mergePass [r1, r2, r3] = some [sliceWrite (sliceWrite r1 r2) r3] := by
  have hkey : lookupIdx [((l ++ "_" ++ f), 0)] (l ++ "_" ++ f) = some 0 := by
    simp [lookupIdx]
  have s1 : mergeStep ⟨[], []⟩ r1 = some ⟨[(l ++ "_" ++ f, 0)], [r1]⟩ := by
    simpa using mergeStep_new ⟨[], []⟩ r1 l f h10 h11 rfl
  have s2 : mergeStep ⟨[(l ++ "_" ++ f, 0)], [r1]⟩ r2
      = some ⟨[(l ++ "_" ++ f, 0)], [sliceWrite r1 r2]⟩ := by
    simpa using mergeStep_seen_le ⟨[(l ++ "_" ++ f, 0)], [r1]⟩ r2 r1 0 l f y1 y2
      h20 h21 hkey rfl h13 h23 g12
  have hm3 : (sliceWrite r1 r2)[3]? = some y1 := by
    rw [sliceWrite_low r2 (by omega) hlen]
    exact h13
  have s3 : mergeStep ⟨[(l ++ "_" ++ f, 0)], [sliceWrite r1 r2]⟩ r3
      = some ⟨[(l ++ "_" ++ f, 0)], [sliceWrite (sliceWrite r1 r2) r3]⟩ := by
    simpa using mergeStep_seen_le ⟨[(l ++ "_" ++ f, 0)], [sliceWrite r1 r2]⟩ r3
      (sliceWrite r1 r2) 0 l f y1 y3 h30 h31 hkey rfl hm3 h33 g13
  simp [mergePass, s1, s2, s3]

/-- Witness for the amended C4 theorem at concrete records with years 3, 3, 4. -/
theorem mergePass_double_merge_witness :
    mergePass
        [["Ngata", "Anaru", "Class A", "3", "Tui", "Rere", "Mr Tui", "", "", "t@x.nz",
          "", "", "", "", ""],
         ["Ngata", "Anaru", "Class B", "3", "Huia", "Pare", "Ms Huia", "", "", "h@x.nz",
          "", "", "", "", ""],
         ["Ngata", "Anaru", "Class C", "4", "Kea", "Manu", "Dr Kea", "", "", "k@x.nz",
          "", "", "", "", ""]]
      = some
        [sliceWrite
          (sliceWrite
            ["Ngata", "Anaru", "Class A", "3", "Tui", "Rere", "Mr Tui", "", "", "t@x.nz",
             "", "", "", "", ""]
            ["Ngata", "Anaru", "Class B", "3", "Huia", "Pare", "Ms Huia", "", "", "h@x.nz",
             "", "", "", "", ""])
          ["Ngata", "Anaru", "Class C", "4", "Kea", "Manu", "Dr Kea", "", "", "k@x.nz",
           "", "", "", "", ""]] :=
  mergePass_double_merge _ _ _ "Ngata" "Anaru" "3" "3" "4"
    rfl rfl rfl rfl rfl rfl rfl rfl rfl rfl (by decide) (by decide)

/-- Claim C5: in the Duplicate Merge Pass, an incoming record whose Student
Key was already seen and whose year differs by at most 1 from the stored
record's year overwrites the stored record's fields 10-14 with the incoming
record's fields 2-6 and is not appended; the number of emitted records and
every other emitted record are unchanged. -/
theorem mergeStep_within_one_merges
    (st : MergeState) (row prev : List String) (idx : Nat) (l f py cy : String)
    (h0 : row[0]? = some l) (h1 : row[1]? = some f)
    (hseen : lookupIdx st.seen (l ++ "_" ++ f) = some idx)
    (hidx : st.out[idx]? = some prev)
    (h3p : prev[3]? = some py) (h3c : row[3]? = some cy)
    (hle : (pyYear py - pyYear cy).natAbs ≤ 1)
    (hl : prev.length = 15) (hr : 7 ≤ row.length) :
    mergeStep st row = some ⟨st.seen, st.out.set idx (sliceWrite prev row)⟩
    ∧ (st.out.set idx (sliceWrite prev row)).length = st.out.length
    ∧ (∀ j, j ≠ idx → (st.out.set idx (sliceWrite prev row))[j]? = st.out[j]?)
    ∧ (∀ k, k < 5 → (sliceWrite prev row)[10 + k]? = row[2 + k]?)
    ∧ (∀ k, k < 10 → (sliceWrite prev row)[k]? = prev[k]?) :=
  ⟨mergeStep_seen_le st row prev idx l f py cy h0 h1 hseen hidx h3p h3c hle,
   List.length_set st.out idx (sliceWrite prev row),
   fun _ hj => List.getElem?_set_ne fun h => hj h.symm,
   fun _ hk => sliceWrite_high hk hl hr,
   fun _ hk => sliceWrite_low row hk hl⟩

/-- Witness for the C5 theorem at concrete records with years 3 and 4. -/
theorem mergeStep_within_one_merges_witness :
    mergeStep
        ⟨[("Ngata_Anaru", 0)],
         [["Ngata", "Anaru", "Class A", "3", "Tui", "Rere", "Mr Tui", "", "", "t@x.nz",
           "", "", "", "", ""]]⟩
        ["Ngata", "Anaru", "Class B", "4", "Huia", "Pare", "Ms Huia", "", "", "h@x.nz",
         "", "", "", "", ""]
      = some
        ⟨[("Ngata_Anaru", 0)],
         [["Ngata", "Anaru", "Class A", "3", "Tui", "Rere", "Mr Tui", "", "", "t@x.nz",
           "", "", "", "", ""]].set 0
           (sliceWrite
             ["Ngata", "Anaru", "Class A", "3", "Tui", "Rere", "Mr Tui", "", "", "t@x.nz",
              "", "", "", "", ""]
             ["Ngata", "Anaru", "Class B", "4", "Huia", "Pare", "Ms Huia", "", "", "h@x.nz",
              "", "", "", "", ""])⟩ :=
  (mergeStep_within_one_merges
      ⟨[("Ngata_Anaru", 0)],
       [["Ngata", "Anaru", "Class A", "3", "Tui", "Rere", "Mr Tui", "", "", "t@x.nz",
         "", "", "", "", ""]]⟩
      ["Ngata", "Anaru", "Class B", "4", "Huia", "Pare", "Ms Huia", "", "", "h@x.nz",
       "", "", "", "", ""]
      ["Ngata", "Anaru", "Class A", "3", "Tui", "Rere", "Mr Tui", "", "", "t@x.nz",
       "", "", "", "", ""] 0 "Ngata" "Anaru" "3" "4"
      rfl rfl (by decide) rfl rfl rfl (by decide) rfl (by decide)).1

/-- Claim C6, counterexample: on the spec's scenario rows the fallback
formatter returns no output records at all — the name row has a single cell
and source line 181 requires at least two cells for a student row — rather
than the one record the claim states. -/
theorem scenario_name_row_single_cell_no_record :
    (basic_format (fun _ => none)
        [[Cell.str "Year 3"],
         [Cell.str "Mrs Smith", Cell.str "smith@school.nz"],
         [Cell.str "Anaru Ngata"]]
        (some { school_type := some "primary" })).rows = []
    ∧ ([] : List (List String))
      ≠ [["Ngata", "Anaru", "Year 3", "3", "", "", "Mrs Smith", "", "",
          "smith@school.nz", "", "", "", "", ""]] := by
  exact ⟨by decide, by decide⟩

/-- Claim C6, amended: on the scenario rows with the name row given a second
(blank) cell, and with the name-splitting LLM call failing so the whitespace
fallback runs, the fallback formatter returns exactly one Output Record with
last name Ngata, first name Anaru, class Year 3, year 3, teacher title
Mrs Smith and teacher email smith@school.nz; with the original single-cell
name row it returns no records. -/
theorem scenario_name_row_two_cells_one_record :
    (basic_format (fun _ => none)
        [[Cell.str "Year 3"],
         [Cell.str "Mrs Smith", Cell.str "smith@school.nz"],
         [Cell.str "Anaru Ngata", Cell.str ""]]
        (some { school_type := some "primary" })).rows
      = [["Ngata", "Anaru", "Year 3", "3", "", "", "Mrs Smith", "", "",
          "smith@school.nz", "", "", "", "", ""]] := by
  decide

/-- Claim C8, counterexample: the branches of source lines 172-178 are an
if/elif chain, so the updates are not independent — a title-pattern cell that
contains an at sign does not set the email, and a cell matching both the
class and the title patterns does not set the title. -/
theorem email_not_set_on_title_cell :
    (["mr@one.com", "x"].foldl updateCell initCtx).teacher.email = ""
    ∧ hasAt "mr@one.com" = true
    ∧ titlePat "mr@one.com" = true
    ∧ (["Mrs Room"].foldl updateCell initCtx).teacher.title = ""
    ∧ titlePat "Mrs Room" = true
    ∧ classPat "Mrs Room" = true := by
  exact ⟨by decide, by decide, by decide, by decide, by decide, by decide⟩

/-- Claim C8, amended: the per-cell context update is an if/elif chain with
the class pattern first — a class-indicative cell updates only the class
context, leaving the teacher title and email untouched even when the cell also
matches the title pattern or contains an at sign; the title is set exactly on
cells matching the title pattern but not the class pattern; the email is set
exactly on cells containing an at sign that match neither earlier pattern;
and a cell matching no branch changes nothing. -/
theorem updateCell_chain_priority (ctx : ScanCtx) (cell : String) :
    (classPat cell = true →
      updateCell ctx cell = { ctx with current_class := cell })
    ∧ (classPat cell = false → titlePat cell = true →
      updateCell ctx cell = { ctx with teacher := { ctx.teacher with title := cell } })
    ∧ (classPat cell = false → titlePat cell = false → hasAt cell = true →
      updateCell ctx cell = { ctx with teacher := { ctx.teacher with email := cell } })
    ∧ (classPat cell = false → titlePat cell = false → hasAt cell = false →
      updateCell ctx cell = ctx) := by
  refine ⟨?_, ?_, ?_, ?_⟩
  · intro h1
    simp [updateCell, h1]
  · intro h1 h2
    simp [updateCell, h1, h2]
  · intro h1 h2 h3
    simp [updateCell, h1, h2, h3]
  · intro h1 h2 h3
    simp [updateCell, h1, h2, h3]

/-- Claim C10: the fallback scan skips a row — leaving the entire loop state,
contexts and emitted rows, unchanged — exactly when the row is empty or no
cell in it is both truthy as a value and non-blank after string conversion and
stripping; in particular a row whose only cell is the number 0 is skipped
(its text form is non-blank but the value is falsy), and blank or
whitespace-only rows are always skipped. -/
theorem skip_condition_characterization (oracle : String → Option (String × String))
    (sty : String) (st : ScanState) (raw : List Cell) :
    (skipRow raw = true ↔
      (raw = [] ∨ ∀ c ∈ raw, ¬(cellTruthy c = true ∧ pyStrip (cellStr c) ≠ "")))
    ∧ (skipRow raw = true → basicStep oracle sty st raw = st) := by
  have hcell : ∀ c : Cell,
      ((!(pyStrip (cellStr c)).isEmpty && cellTruthy c) = false)
        ↔ ¬(cellTruthy c = true ∧ pyStrip (cellStr c) ≠ "") := by
    intro c
    have hs := String.isEmpty_iff (pyStrip (cellStr c))
    cases hb : (pyStrip (cellStr c)).isEmpty <;> cases ht : cellTruthy c <;> simp_all
  refine ⟨?_, fun h => by simp [basicStep, h]⟩
  unfold skipRow
  simp only [Bool.or_eq_true, List.isEmpty_iff, Bool.not_eq_true', List.any_eq_false]
  refine or_congr Iff.rfl (forall₂_congr fun c hc => ?_)
  rw [Bool.not_eq_true]
  exact hcell c

/-- Witness for the C10 theorem at a row whose only cell is the number 0. -/
theorem skip_condition_characterization_witness :
    (skipRow [Cell.int 0] = true ↔
      ([Cell.int 0] = [] ∨
        ∀ c ∈ [Cell.int 0], ¬(cellTruthy c = true ∧ pyStrip (cellStr c) ≠ "")))
    ∧ (skipRow [Cell.int 0] = true →
        basicStep (fun _ => none) "" ⟨initCtx, []⟩ [Cell.int 0] = ⟨initCtx, []⟩) :=
  skip_condition_characterization (fun _ => none) "" ⟨initCtx, []⟩ [Cell.int 0]

/-- Witness for the amended C8 theorem at a cell matching both the class and
the title patterns: only the class context is updated. -/
theorem updateCell_chain_priority_witness :
    updateCell initCtx "Mrs Room" = { initCtx with current_class := "Mrs Room" } :=
  (updateCell_chain_priority initCtx "Mrs Room").1 (by decide)

/-- Claim C9: the text normalizer `clean_text` is idempotent — applying it
twice equals applying it once, for every input string: the second pass finds
no macron vowels or apostrophes to rewrite and nothing further to strip. -/
theorem clean_text_idempotent (x : String) : clean_text (clean_text x) = clean_text x := by
  unfold clean_text
  apply congrArg String.mk
  show stripChars
      ((macronize (stripChars ((macronize x.data).filter fun c => c != '\''))).filter
        fun c => c != '\'') =
    stripChars ((macronize x.data).filter fun c => c != '\'')
  have hmac :
      macronize (stripChars ((macronize x.data).filter fun c => c != '\'')) =
        stripChars ((macronize x.data).filter fun c => c != '\'') :=
    macronize_eq_self fun c hc =>
      macronize_no_macron (List.mem_of_mem_filter (mem_stripChars hc))
  rw [hmac]
  have hfil :
      (stripChars ((macronize x.data).filter fun c => c != '\'')).filter
          (fun c => c != '\'') =
        stripChars ((macronize x.data).filter fun c => c != '\'') :=
    List.filter_eq_self.mpr fun c hc => by
      have h1 : c ∈ List.filter (fun c => c != '\'') (macronize x.data) :=
        mem_stripChars hc
      exact (List.mem_filter.mp h1).2
  rw [hfil]
  exact stripChars_idem ((macronize x.data).filter fun c => c != '\'')

/-- Claim C7, counterexample: the year pattern's prefix is optional and
`re.search` returns the leftmost match, so in a label that also holds an
earlier digit the token after the word Year is not the one returned — the
claim demands "3" here, but the resolver returns "5". -/
theorem year_extraction_disturbed_by_earlier_token :
    determine_year_group "Room 5, Year 3" "primary" = "5"
    ∧ ("5" : String) ≠ "3" := by
  exact ⟨by decide, by decide⟩

/-- Claim C7, amended: `determine_year_group` returns the leftmost digit run
or k/K token of the label, uppercased — for every label of the form p ++ g ++ t
where p holds no digit and no letter k or K, and g is either a non-empty digit
string with t not starting in a digit, or the single letter k or K, the
resolver returns exactly g uppercased, for every school type; text before the
token containing a digit or k/K, or digits immediately after it, can change
the result. -/
theorem determine_year_group_first_token (p g t school_type : String)
    (hp : ∀ c ∈ p.data, isGroupChar c = false)
    (hg : (g.data ≠ [] ∧ (∀ c ∈ g.data, c.isDigit = true) ∧
            ∀ c, t.data.head? = some c → c.isDigit = false)
          ∨ g = "k" ∨ g = "K") :
    determine_year_group (p ++ g ++ t) school_type = strUpper g := by
  have hsearch : searchYear (p.data ++ (g.data ++ t.data)) = some g.data := by
    rcases hg with ⟨hne, hdig, ht⟩ | rfl | rfl
    · obtain ⟨d, ds, hds⟩ : ∃ d ds, g.data = d :: ds := by
        cases hgd : g.data with
        | nil => exact absurd hgd hne
        | cons d ds => exact ⟨d, ds, rfl⟩
      have hd : d.isDigit = true := hdig d (hds ▸ List.mem_cons_self d ds)
      have hdall : ∀ x ∈ ds, x.isDigit = true := fun x hx =>
        hdig x (hds ▸ List.mem_cons_of_mem _ hx)
      have hgc : isGroupChar d = true := by simp [isGroupChar, hd]
      have hgroup : groupAt (d :: (ds ++ t.data)) = some (d :: ds) := by
        simp [groupAt, hd, takeWhile_digits_append ds t.data hdall ht]
      have hdata : p.data ++ (g.data ++ t.data) = p.data ++ (d :: (ds ++ t.data)) := by
        simp [hds]
      rw [hdata, searchYear_junk p.data d (ds ++ t.data) (d :: ds) hp hgc hgroup, hds]
    · have hdata : p.data ++ (("k" : String).data ++ t.data) = p.data ++ ('k' :: t.data) := rfl
      have hgroup : groupAt ('k' :: t.data) = some ['k'] := by
        simp [groupAt, show ('k').isDigit = false from rfl]
      rw [hdata, searchYear_junk p.data 'k' t.data ['k'] hp (by decide) hgroup]
    · have hdata : p.data ++ (("K" : String).data ++ t.data) = p.data ++ ('K' :: t.data) := rfl
      have hgroup : groupAt ('K' :: t.data) = some ['K'] := by
        simp [groupAt, show ('K').isDigit = false from rfl]
      rw [hdata, searchYear_junk p.data 'K' t.data ['K'] hp (by decide) hgroup]
  simp [determine_year_group, hsearch, strUpper]

/-- Witness for the amended C7 theorem: year token 10 after the word Year,
with surrounding non-digit text on both sides. -/
theorem determine_year_group_first_token_witness :
    determine_year_group ("Year " ++ "10" ++ " fern") "x" = strUpper "10" :=
  determine_year_group_first_token "Year " "10" " fern" "x" (by decide)
    (Or.inl ⟨by decide, by decide, by
      intro x hx
      have hx' : some ' ' = some x := hx
      cases hx'
      decide⟩)

end SchoolLists
